import Mathlib

set_option maxHeartbeats 1000000

namespace CkbCli

/-!
Verification development for the offline transaction-resolution layer of the
ckb-cli wallet: the DAO economic calculator (`src/subcommands/dao/util.rs`),
the mock-transaction resolver and its verifier adapters
(`ckb-sdk-types/src/transaction.rs`), and the portable JSON representation.

Machine integers of the source (`u64`, `u128`, `u32`) are embedded as `Nat`
with explicit `% 2 ^ 64` at the points where the source truncates or wraps.
Operations that panic in the source (unchecked unsigned subtraction via
`Capacity::safe_sub(..).unwrap()`, division by zero) are embedded as `none`
or `Except.error`.
-/

/-- `2 ^ 64`, the modulus of the source's `u64` arithmetic. -/
def U64 : Nat := 2 ^ 64

/-- Modelled from the spec: epoch position `(number, index, length)` carried by
a header (`EpochNumberWithFraction` of the external ledger type library, §3
"carries epoch position (number, index, length)").  The packed on-chain
representation bounds the components (24/16/16 bits); the embedding uses plain
naturals. -/
structure Epoch where
  number : Nat
  index : Nat
  length : Nat
  deriving DecidableEq, Repr

/-- Modelled from the spec: block header (§3 "Header: identity = block hash;
carries epoch position (number, index, length) and a DAO accumulator field").
`dao_ar` is the accumulated rate, the first `u64` extracted by
`extract_dao_data(header.dao())`; `restFields` stands for the remaining
serialized header fields; `hash` is the cached identity hash, which may be
force-set independently of the fields (`fake_hash`, §4.4). -/
structure HeaderView where
  epoch : Epoch
  dao_ar : Nat
  restFields : Nat
  hash : Nat
  deriving DecidableEq, Repr

/-- Modelled from the spec: cell output (§3 "Cell (output+data): capacity,
lock/type script references").  Scripts are opaque here. -/
structure CellOutput where
  capacity : Nat
  lock : Nat
  type_script : Option Nat
  deriving DecidableEq, Repr

/-- `calculate_dao_maximum_withdraw4` (`src/subcommands/dao/util.rs` lines
97-110).  `output_capacity.safe_sub(occupied_capacity).unwrap()` panics when
the occupied capacity exceeds the output capacity (embedded as `none`); the
`u128` division panics when the deposit accumulated rate is zero (embedded as
`none`).  The `u128` product of two `u64` values is exact, so the wide
multiplication and truncating division are plain `Nat` operations; `interest
as u64` truncates modulo `2 ^ 64` and the final `u64` addition wraps modulo
`2 ^ 64` (release-profile semantics). -/
def calculate_dao_maximum_withdraw4 (deposit_header prepare_header : HeaderView)
    (output : CellOutput) (occupied_capacity : Nat) : Option Nat :=
  let deposit_ar := deposit_header.dao_ar
  let prepare_ar := prepare_header.dao_ar
  if output.capacity < occupied_capacity then
    none
  else if deposit_ar = 0 then
    none
  else
    let interest := (output.capacity - occupied_capacity) * prepare_ar / deposit_ar
    some ((output.capacity + interest % U64) % U64)

/-- `minimal_unlock_point` (`src/subcommands/dao/util.rs` lines 132-155).
`prepare_point.number() - deposit_point.number()` is unchecked unsigned `u64`
subtraction; when the prepare epoch number is smaller it underflows and the
function produces no result (embedded as `none`). -/
def minimal_unlock_point (deposit_header prepare_header : HeaderView) :
    Option Epoch :=
  let LOCK_PERIOD_EPOCHES : Nat := 180
  let deposit_point := deposit_header.epoch
  let prepare_point := prepare_header.epoch
  if prepare_point.number < deposit_point.number then
    none
  else
    let prepare_fraction := prepare_point.index * deposit_point.length
    let deposit_fraction := deposit_point.index * prepare_point.length
    let passed_epoch_cnt :=
      if prepare_fraction > deposit_fraction then
        prepare_point.number - deposit_point.number + 1
      else
        prepare_point.number - deposit_point.number
    let rest_epoch_cnt :=
      (passed_epoch_cnt + (LOCK_PERIOD_EPOCHES - 1)) / LOCK_PERIOD_EPOCHES
        * LOCK_PERIOD_EPOCHES
    some (Epoch.mk (deposit_point.number + rest_epoch_cnt) deposit_point.index
      deposit_point.length)

/-- Header with a given epoch, used for concrete evaluations. -/
def headerAtEpoch (e : Epoch) : HeaderView :=
  { epoch := e, dao_ar := 1, restFields := 0, hash := 0 }

/-! ## Mock transaction data model (ckb-sdk-types/src/transaction.rs) -/

/-- Raw byte strings; each entry stands for one byte. -/
abbrev Bytes := List Nat

/-- Modelled from the spec: out-point `(tx hash, output index)` (§3), the
identity key for a cell; a 32-byte transaction hash plus a `u32` output
index (external ledger type library). -/
structure OutPoint where
  tx_hash : List Nat
  index : Nat
  deriving DecidableEq

/-- Modelled from the spec: transaction input — the out-point it spends plus
the opaque `since` field (external ledger type library). -/
structure CellInput where
  previous_output : OutPoint
  since : Nat
  deriving DecidableEq

/-- Dependency kind: `Code` or `DepGroup` (§3). -/
inductive DepType where
  | code
  | depGroup
  deriving DecidableEq

/-- Modelled from the spec: cell-dependency descriptor — out-point plus kind
(§3 "dependency descriptor incl. kind"). -/
structure CellDep where
  out_point : OutPoint
  dep_type : DepType
  deriving DecidableEq

/-- `MockCellDep`: dependency descriptor plus the overriding output and data. -/
structure MockCellDep where
  cell_dep : CellDep
  output : CellOutput
  data : Bytes
  deriving DecidableEq

/-- `MockInput`: input reference plus the overriding output and data. -/
structure MockInput where
  input : CellInput
  output : CellOutput
  data : Bytes
  deriving DecidableEq

/-- `MockInfo`: ordered override sequences for inputs, cell dependencies and
header dependencies. -/
structure MockInfo where
  inputs : List MockInput
  cell_deps : List MockCellDep
  header_deps : List HeaderView
  deriving DecidableEq

/-- The inert transaction skeleton (the fields of `packed::Transaction` the
resolver reads, plus outputs and witnesses, which it does not). -/
structure Transaction where
  inputs : List CellInput
  cell_deps : List CellDep
  header_deps : List Nat
  outputs : List CellOutput
  witnesses : List Bytes
  deriving DecidableEq

/-- `MockTransaction`: a `MockInfo` plus the transaction skeleton. -/
structure MockTransaction where
  mock_info : MockInfo
  tx : Transaction
  deriving DecidableEq

/-- Modelled from the spec: resolved cell, as built by
`CellMetaBuilder::from_cell_output(output, data).out_point(op).build()`
(external ledger type library): the cell output, its attached data
(`mem_cell_data`, always present on this construction path), and the
out-point it is stored under. -/
structure CellMeta where
  cell_output : CellOutput
  mem_cell_data : Option Bytes
  out_point : OutPoint
  deriving DecidableEq

/-- The `CellMeta` built by the resolver for a resolved `(output, data)`. -/
def mkCellMeta (output : CellOutput) (data : Bytes) (op : OutPoint) : CellMeta :=
  { cell_output := output, mem_cell_data := some data, out_point := op }

/-- Association-list embedding of the source's `HashMap` lookup. -/
def alistLookup {α β : Type} [DecidableEq α] : List (α × β) → α → Option β
  | [], _ => none
  | p :: rest, k => if p.1 = k then some p.2 else alistLookup rest k

/-- Association-list embedding of the source's `HashMap::insert`: overwrite
the value of an existing key, otherwise add the new entry. -/
def alistInsert {α β : Type} [DecidableEq α] : List (α × β) → α → β → List (α × β)
  | [], k, v => [(k, v)]
  | p :: rest, k, v => if p.1 = k then (k, v) :: rest else p :: alistInsert rest k v

/-- Cell mapping of a `Resource`: out-point to resolved cell. -/
abbrev CellMap := List (OutPoint × CellMeta)

/-- Header mapping of a `Resource`: block hash to resolved header. -/
abbrev HeaderMap := List (Nat × HeaderView)

/-- `Resource` (lines 96-99): the closed snapshot produced by resolution. -/
structure Resource where
  required_cells : CellMap
  required_headers : HeaderMap
  deriving DecidableEq

/-- The live data source for cells (`MockResourceLoader::get_live_cell`):
fetch-by-key, may fail with a transport error or return absent. -/
abbrev LiveCellGetter := OutPoint → Except String (Option (CellOutput × Bytes))

/-- The live data source for headers (`MockResourceLoader::get_header`). -/
abbrev LiveHeaderGetter := Nat → Except String (Option HeaderView)

/-- First declared input override matching this exact input (structural
equality on the whole `CellInput`), scanning in declaration order. -/
def findInputEntry (mi : MockInfo) (input : CellInput) : Option MockInput :=
  mi.inputs.find? (fun m => decide (input = m.input))

/-- First declared dependency override keyed by this out-point. -/
def findDepEntry (mi : MockInfo) (op : OutPoint) : Option MockCellDep :=
  mi.cell_deps.find? (fun m => decide (op = m.cell_dep.out_point))

/-- First declared header override whose cached hash equals this block hash. -/
def findHeaderEntry (mi : MockInfo) (block_hash : Nat) : Option HeaderView :=
  mi.header_deps.find? (fun m => decide (block_hash = m.hash))

/-- `MockTransaction::get_input_cell` (lines 44-56): the declared override
matching this exact input wins; otherwise the live fallback is invoked on the
input's previous out-point. -/
def MockTransaction.get_input_cell (mtx : MockTransaction) (input : CellInput)
    (live_cell_getter : LiveCellGetter) :
    Except String (Option (CellOutput × Bytes)) :=
  match findInputEntry mtx.mock_info input with
  | some m => .ok (some (m.output, m.data))
  | none => live_cell_getter input.previous_output

/-- `MockTransaction::get_dep_cell` (lines 58-69): the declared override keyed
by the dependency's out-point wins; otherwise the live fallback. -/
def MockTransaction.get_dep_cell (mtx : MockTransaction) (out_point : OutPoint)
    (live_cell_getter : LiveCellGetter) :
    Except String (Option (CellOutput × Bytes)) :=
  match findDepEntry mtx.mock_info out_point with
  | some m => .ok (some (m.output, m.data))
  | none => live_cell_getter out_point

/-- `MockTransaction::get_header` (lines 71-82): the declared header override
whose (cached, possibly fake) hash equals the block hash wins; otherwise the
live fallback. -/
def MockTransaction.get_header (mtx : MockTransaction) (block_hash : Nat)
    (header_getter : LiveHeaderGetter) : Except String (Option HeaderView) :=
  match findHeaderEntry mtx.mock_info block_hash with
  | some m => .ok (some m)
  | none => header_getter block_hash

/-- Resolution errors of `Resource::from_both`.  In the source every error is
a `String` built with a distinct format pattern; each constructor stands for
one pattern together with the key it names:
`canNotGetInput` for "Can not get CellOutput by input=...",
`canNotGetDep` for "Can not get CellOutput by dep=...",
`parseDepGroup` for "Parse dep group data error: ...",
`canNotGetGroupMember` for "(dep group) Can not get CellOutput by
out_point=...", `canNotGetHeader` for "Can not get header: ...", and
`loaderError` for a transport error of the live source, which the `?`
operator propagates unchanged. -/
inductive RErr where
  | canNotGetInput (input : CellInput)
  | canNotGetDep (dep : CellDep)
  | parseDepGroup (msg : String)
  | canNotGetGroupMember (out_point : OutPoint)
  | canNotGetHeader (hash : Nat)
  | loaderError (msg : String)
  deriving DecidableEq

/-- Little-endian byte-string decoding (for the 4-byte `u32` index). -/
def leBytesToNat (bs : Bytes) : Nat := bs.foldr (fun b acc => b + 256 * acc) 0

/-- Parse-error message for a malformed dependency-group payload. -/
def depGroupLenErrMsg : String := "invalid dep group data length"

/-- Modelled from the spec: deserialization of a dependency-group payload
(`OutPointVec::from_slice` of the external ledger type library; §4.2: "its
data must deserialize as a list of fixed-width entries (32-byte hash + 4-byte
index, 36 bytes each); any length not a multiple of 36 is a fatal parse
error"). -/
def parseOutPointVec (data : Bytes) : Except String (List OutPoint) :=
  if data.length % 36 = 0 then
    .ok ((List.range (data.length / 36)).map (fun i =>
      { tx_hash := (data.drop (36 * i)).take 32,
        index := leBytesToNat (((data.drop (36 * i)).drop 32).take 4) }))
  else
    .error depGroupLenErrMsg

/-- Input phase of `Resource::from_both` (lines 110-118): resolve each
skeleton input via the override-first lookup, failing by name on absence, and
store the resolved cell under the input's previous out-point. -/
def resolveInputs (mtx : MockTransaction) (lc : LiveCellGetter) :
    List CellInput → CellMap → Except RErr CellMap
  | [], cells => .ok cells
  | input :: rest, cells =>
    match mtx.get_input_cell input lc with
    | .error e => .error (.loaderError e)
    | .ok none => .error (.canNotGetInput input)
    | .ok (some (output, data)) =>
        resolveInputs mtx lc rest
          (alistInsert cells input.previous_output
            (mkCellMeta output data input.previous_output))

/-- Dependency-group member resolution inside `Resource::from_both`
(lines 128-145): resolve each sub-out-point (override first) and store it. -/
def resolveSubOutPoints (mtx : MockTransaction) (lc : LiveCellGetter) :
    List OutPoint → CellMap → Except RErr CellMap
  | [], cells => .ok cells
  | sub :: rest, cells =>
    match mtx.get_dep_cell sub lc with
    | .error e => .error (.loaderError e)
    | .ok none => .error (.canNotGetGroupMember sub)
    | .ok (some (output, data)) =>
        resolveSubOutPoints mtx lc rest
          (alistInsert cells sub (mkCellMeta output data sub))

/-- Cell-dependency phase of `Resource::from_both` (lines 120-151): resolve
each dependency; on a `DepGroup` kind, parse its data as an out-point list
(fatal parse error on failure) and resolve and store every member before
storing the group cell itself under its own out-point. -/
def resolveCellDeps (mtx : MockTransaction) (lc : LiveCellGetter) :
    List CellDep → CellMap → Except RErr CellMap
  | [], cells => .ok cells
  | dep :: rest, cells =>
    match mtx.get_dep_cell dep.out_point lc with
    | .error e => .error (.loaderError e)
    | .ok none => .error (.canNotGetDep dep)
    | .ok (some (output, data)) =>
      match dep.dep_type with
      | .code =>
          resolveCellDeps mtx lc rest
            (alistInsert cells dep.out_point (mkCellMeta output data dep.out_point))
      | .depGroup =>
        match parseOutPointVec data with
        | .error e => .error (.parseDepGroup e)
        | .ok subs =>
          match resolveSubOutPoints mtx lc subs cells with
          | .error e => .error e
          | .ok cells1 =>
              resolveCellDeps mtx lc rest
                (alistInsert cells1 dep.out_point
                  (mkCellMeta output data dep.out_point))

/-- Header phase of `Resource::from_both` (lines 153-160): resolve each
header dependency via the override-first lookup and store it under its hash. -/
def resolveHeaderDeps (mtx : MockTransaction) (hg : LiveHeaderGetter) :
    List Nat → HeaderMap → Except RErr HeaderMap
  | [], headers => .ok headers
  | bh :: rest, headers =>
    match mtx.get_header bh hg with
    | .error e => .error (.loaderError e)
    | .ok none => .error (.canNotGetHeader bh)
    | .ok (some header) =>
        resolveHeaderDeps mtx hg rest (alistInsert headers bh header)

/-- `Resource::from_both` (lines 102-166): all-or-nothing resolution of the
skeleton's inputs, cell dependencies (expanding dependency groups) and header
dependencies, in that deterministic order. -/
def Resource.from_both (mtx : MockTransaction) (lc : LiveCellGetter)
    (hg : LiveHeaderGetter) : Except RErr Resource :=
  match resolveInputs mtx lc mtx.tx.inputs [] with
  | .error e => .error e
  | .ok cells1 =>
    match resolveCellDeps mtx lc mtx.tx.cell_deps cells1 with
    | .error e => .error e
    | .ok cells2 =>
      match resolveHeaderDeps mtx hg mtx.tx.header_deps [] with
      | .error e => .error e
      | .ok headers =>
          .ok { required_cells := cells2, required_headers := headers }

/-- `CellStatus` of the external verifier interface: a live cell with its
meta, a dead (spent) cell, or unknown. -/
inductive CellStatus where
  | live (cell : CellMeta)
  | dead
  | unknown
  deriving DecidableEq

/-- `impl CellProvider for Resource` (lines 175-183): look the out-point up in
the resolved cell mapping; a hit is a live cell, a miss is `Unknown`. -/
def Resource.cell (r : Resource) (out_point : OutPoint) : CellStatus :=
  match alistLookup r.required_cells out_point with
  | some cell_meta => .live cell_meta
  | none => .unknown

/-- `impl HeaderChecker for Resource` (lines 169-173): a hash is valid iff it
is present in the resolved header mapping. -/
def Resource.is_valid (r : Resource) (block_hash : Nat) : Bool :=
  (alistLookup r.required_headers block_hash).isSome

/-- An input of the skeleton is covered when a declared override matches it. -/
def coversInput (mi : MockInfo) (input : CellInput) : Bool :=
  mi.inputs.any (fun m => decide (input = m.input))

/-- An out-point is covered as a dependency when a declared dependency
override is keyed by it. -/
def coversDepOutPoint (mi : MockInfo) (op : OutPoint) : Bool :=
  mi.cell_deps.any (fun m => decide (op = m.cell_dep.out_point))

/-- A header dependency is covered when a declared header override carries
this hash. -/
def coversHeader (mi : MockInfo) (block_hash : Nat) : Bool :=
  mi.header_deps.any (fun m => decide (block_hash = m.hash))

/-- A cell dependency is covered when an override is keyed by its out-point
and, for a dependency group, the override's data parses and every member
out-point is covered in turn. -/
def coversDep (mi : MockInfo) (dep : CellDep) : Bool :=
  match findDepEntry mi dep.out_point with
  | none => false
  | some m =>
    match dep.dep_type with
    | .code => true
    | .depGroup =>
      match parseOutPointVec m.data with
      | .error _ => false
      | .ok subs => subs.all (coversDepOutPoint mi)

/-- The override store declares an entry for every input, cell dependency
(including dependency-group members) and header dependency the skeleton
references. -/
def covers (mtx : MockTransaction) : Bool :=
  mtx.tx.inputs.all (coversInput mtx.mock_info)
    && mtx.tx.cell_deps.all (coversDep mtx.mock_info)
    && mtx.tx.header_deps.all (coversHeader mtx.mock_info)

/-- Transport-failure message used by the always-failing live cell source. -/
def liveCellFailMsg : String := "live cell source failure"

/-- Transport-failure message used by the always-failing live header source. -/
def liveHeaderFailMsg : String := "live header source failure"

/-- A live cell source that always fails. -/
def failCellGetter : LiveCellGetter := fun _ => .error liveCellFailMsg

/-- A live header source that always fails. -/
def failHeaderGetter : LiveHeaderGetter := fun _ => .error liveHeaderFailMsg

/-! ### Concrete fixtures for witnesses -/

/-- Fully covered fixture: one input, one code dependency, one header. -/
def wOP4 : OutPoint := ⟨List.replicate 32 4, 1⟩

/-- Input of the covered fixture. -/
def wInput4 : CellInput := ⟨wOP4, 0⟩

/-- Code dependency of the covered fixture. -/
def wDep4 : CellDep := ⟨⟨List.replicate 32 6, 0⟩, DepType.code⟩

/-- Header override of the covered fixture, stored under hash 77. -/
def wHeader4 : HeaderView := ⟨⟨3, 0, 1⟩, 10 ^ 18, 0, 77⟩

/-- A mock transaction whose override store covers every referenced key. -/
def wMtx4 : MockTransaction :=
  { mock_info :=
      { inputs := [⟨wInput4, ⟨500, 0, none⟩, [1, 2]⟩],
        cell_deps := [⟨wDep4, ⟨600, 0, none⟩, [3]⟩],
        header_deps := [wHeader4] },
    tx := { inputs := [wInput4], cell_deps := [wDep4], header_deps := [77],
            outputs := [], witnesses := [] } }

/-- 32-byte hash of the first dependency-group member. -/
def wHash1 : List Nat := List.replicate 32 1

/-- 32-byte hash of the second dependency-group member. -/
def wHash2 : List Nat := List.replicate 32 2

/-- 32-byte hash of the dependency-group cell itself. -/
def wHash3 : List Nat := List.replicate 32 3

/-- First member out-point, index 5. -/
def wSub1 : OutPoint := ⟨wHash1, 5⟩

/-- Second member out-point, index 7. -/
def wSub2 : OutPoint := ⟨wHash2, 7⟩

/-- Out-point of the dependency-group cell. -/
def wGroupOP : OutPoint := ⟨wHash3, 0⟩

/-- Serialized dependency-group payload: two 36-byte entries. -/
def wGroupData : Bytes := wHash1 ++ [5, 0, 0, 0] ++ wHash2 ++ [7, 0, 0, 0]

/-- The dependency-group cell dependency. -/
def wGroupDep : CellDep := ⟨wGroupOP, DepType.depGroup⟩

/-- Override entry for the dependency-group cell. -/
def wGroupMock : MockCellDep := ⟨wGroupDep, ⟨100, 0, none⟩, wGroupData⟩

/-- A mock transaction with one dependency-group dependency encoding two
member out-points, all covered by overrides. -/
def wMtx7 : MockTransaction :=
  { mock_info :=
      { inputs := [],
        cell_deps := [wGroupMock,
          ⟨⟨wSub1, DepType.code⟩, ⟨7, 0, none⟩, [1]⟩,
          ⟨⟨wSub2, DepType.code⟩, ⟨8, 0, none⟩, [2]⟩],
        header_deps := [] },
    tx := { inputs := [], cell_deps := [wGroupDep], header_deps := [],
            outputs := [], witnesses := [] } }

/-- The snapshot resolved from `wMtx7`: both members, then the group cell. -/
def wRes7 : Resource :=
  ⟨[(wSub1, mkCellMeta ⟨7, 0, none⟩ [1] wSub1),
    (wSub2, mkCellMeta ⟨8, 0, none⟩ [2] wSub2),
    (wGroupOP, mkCellMeta ⟨100, 0, none⟩ wGroupData wGroupOP)], []⟩

/-- Out-point of the malformed dependency-group fixture. -/
def wDep5OP : OutPoint := ⟨List.replicate 32 11, 0⟩

/-- The malformed dependency-group dependency. -/
def wDep5 : CellDep := ⟨wDep5OP, DepType.depGroup⟩

/-- Override entry whose data is a single byte — not a multiple of 36. -/
def wMock5 : MockCellDep := ⟨wDep5, ⟨50, 0, none⟩, [0]⟩

/-- A mock transaction with one dependency-group dependency whose declared
payload has length 1. -/
def wMtx5 : MockTransaction :=
  { mock_info := { inputs := [], cell_deps := [wMock5], header_deps := [] },
    tx := { inputs := [], cell_deps := [wDep5], header_deps := [],
            outputs := [], witnesses := [] } }

/-! ## Portable representation (lines 207-322) -/

/-- `json_types::HeaderView`: the serialized inner fields plus an explicit
hash field. -/
structure ReprHeaderView where
  inner_epoch : Epoch
  inner_dao_ar : Nat
  inner_restFields : Nat
  hash : Nat
  deriving DecidableEq

/-- `ReprMockInput` (lines 213-218); the input/output/data conversions of the
external JSON type library are mechanical bijections, embedded as identity. -/
structure ReprMockInput where
  input : CellInput
  output : CellOutput
  data : Bytes
  deriving DecidableEq

/-- `ReprMockCellDep` (lines 207-212). -/
structure ReprMockCellDep where
  cell_dep : CellDep
  output : CellOutput
  data : Bytes
  deriving DecidableEq

/-- `ReprMockInfo` (lines 219-224). -/
structure ReprMockInfo where
  inputs : List ReprMockInput
  cell_deps : List ReprMockCellDep
  header_deps : List ReprHeaderView
  deriving DecidableEq

/-- `ReprMockTransaction` (lines 225-229); the skeleton's JSON encoding is an
external mechanical bijection, embedded as identity. -/
structure ReprMockTransaction where
  mock_info : ReprMockInfo
  tx : Transaction
  deriving DecidableEq

/-- `HeaderView::fake_hash` (external ledger type library): force-set the
cached hash, leaving the fields untouched. -/
def HeaderView.fake_hash (h : HeaderView) (hash : Nat) : HeaderView :=
  { h with hash := hash }

/-- Modelled from the spec: the external core-to-JSON header conversion
derives the hash field from the serialized header fields (§4.4: the encoder
must record "the literal claimed hash (not a recomputation)", which is what
the unadjusted conversion would produce).  `computeHash` is the (arbitrary)
hash function of the ledger. -/
def headerToJsonExternal (computeHash : Epoch → Nat → Nat → Nat)
    (h : HeaderView) : ReprHeaderView :=
  { inner_epoch := h.epoch, inner_dao_ar := h.dao_ar,
    inner_restFields := h.restFields,
    hash := computeHash h.epoch h.dao_ar h.restFields }

/-- Modelled from the spec: the external JSON-to-core header conversion
rebuilds the header from its fields, with the cached hash recomputed from
those fields. -/
def headerOfJsonExternal (computeHash : Epoch → Nat → Nat → Nat)
    (r : ReprHeaderView) : HeaderView :=
  { epoch := r.inner_epoch, dao_ar := r.inner_dao_ar,
    restFields := r.inner_restFields,
    hash := computeHash r.inner_epoch r.inner_dao_ar r.inner_restFields }

/-- Header encoding inside `From<MockInfo> for ReprMockInfo` (lines 274-284):
convert to JSON, then overwrite the hash field with the literal cached hash
("Keep the user given hash"). -/
def headerToRepr (computeHash : Epoch → Nat → Nat → Nat) (h : HeaderView) :
    ReprHeaderView :=
  let hash := h.hash
  let json_header := headerToJsonExternal computeHash h
  { json_header with hash := hash }

/-- Header decoding inside `From<ReprMockInfo> for MockInfo` (lines 294-302):
rebuild the header from the JSON fields, then force the literal claimed hash
onto it with `fake_hash` ("Keep the user given hash"). -/
def headerOfRepr (computeHash : Epoch → Nat → Nat → Nat) (r : ReprHeaderView) :
    HeaderView :=
  let hash := r.hash
  (headerOfJsonExternal computeHash r).fake_hash hash

/-- `From<MockInput> for ReprMockInput` (lines 250-258). -/
def mockInputToRepr (m : MockInput) : ReprMockInput :=
  { input := m.input, output := m.output, data := m.data }

/-- `From<ReprMockInput> for MockInput` (lines 259-267). -/
def mockInputOfRepr (m : ReprMockInput) : MockInput :=
  { input := m.input, output := m.output, data := m.data }

/-- `From<MockCellDep> for ReprMockCellDep` (lines 231-239). -/
def mockCellDepToRepr (m : MockCellDep) : ReprMockCellDep :=
  { cell_dep := m.cell_dep, output := m.output, data := m.data }

/-- `From<ReprMockCellDep> for MockCellDep` (lines 240-248). -/
def mockCellDepOfRepr (m : ReprMockCellDep) : MockCellDep :=
  { cell_dep := m.cell_dep, output := m.output, data := m.data }

/-- `From<MockInfo> for ReprMockInfo` (lines 269-287). -/
def mockInfoToRepr (computeHash : Epoch → Nat → Nat → Nat) (info : MockInfo) :
    ReprMockInfo :=
  { inputs := info.inputs.map mockInputToRepr,
    cell_deps := info.cell_deps.map mockCellDepToRepr,
    header_deps := info.header_deps.map (headerToRepr computeHash) }

/-- `From<ReprMockInfo> for MockInfo` (lines 289-305). -/
def mockInfoOfRepr (computeHash : Epoch → Nat → Nat → Nat) (info : ReprMockInfo) :
    MockInfo :=
  { inputs := info.inputs.map mockInputOfRepr,
    cell_deps := info.cell_deps.map mockCellDepOfRepr,
    header_deps := info.header_deps.map (headerOfRepr computeHash) }

/-- `From<MockTransaction> for ReprMockTransaction` (lines 307-314). -/
def mockTransactionToRepr (computeHash : Epoch → Nat → Nat → Nat)
    (mtx : MockTransaction) : ReprMockTransaction :=
  { mock_info := mockInfoToRepr computeHash mtx.mock_info, tx := mtx.tx }

/-- `From<ReprMockTransaction> for MockTransaction` (lines 315-322). -/
def mockTransactionOfRepr (computeHash : Epoch → Nat → Nat → Nat)
    (r : ReprMockTransaction) : MockTransaction :=
  { mock_info := mockInfoOfRepr computeHash r.mock_info, tx := r.tx }

/-- C1: for every deposit and prepare header whose epoch numbers satisfy
`prepare.number ≥ deposit.number`, `minimal_unlock_point` returns the epoch
`(deposit.number + rest, deposit.index, deposit.length)`, where `passed` is the
epoch-number difference incremented by 1 exactly when the prepare fraction
strictly exceeds the deposit fraction (cross-multiplied; equal fractions add
nothing) and `rest = ⌈passed / 180⌉ * 180`. -/
theorem minimal_unlock_point_formula (dh ph : HeaderView)
    (h : dh.epoch.number ≤ ph.epoch.number) :
    minimal_unlock_point dh ph =
      some ⟨dh.epoch.number +
        ((ph.epoch.number - dh.epoch.number +
          (if dh.epoch.index * ph.epoch.length < ph.epoch.index * dh.epoch.length
            then 1 else 0)) ⌈/⌉ 180) * 180,
        dh.epoch.index, dh.epoch.length⟩ := by
  have hceil : ∀ x : Nat, x ⌈/⌉ 180 = (x + 179) / 180 := by
    intro x
    rw [Nat.ceilDiv_eq_add_pred_div]
    congr 1
  simp only [minimal_unlock_point, hceil]
  rw [if_neg (by omega)]
  split
  · norm_num
  · norm_num

/-- C1 witness: the two examples recorded in the specification, obtained from
`minimal_unlock_point_formula`. -/
theorem minimal_unlock_point_formula_witness :
    minimal_unlock_point (headerAtEpoch ⟨5, 5, 1000⟩) (headerAtEpoch ⟨184, 5, 1000⟩)
        = some ⟨185, 5, 1000⟩
    ∧ minimal_unlock_point (headerAtEpoch ⟨5, 5, 1000⟩) (headerAtEpoch ⟨185, 6, 1000⟩)
        = some ⟨365, 5, 1000⟩ := by
  constructor
  · have h := minimal_unlock_point_formula (headerAtEpoch ⟨5, 5, 1000⟩)
      (headerAtEpoch ⟨184, 5, 1000⟩) (by decide)
    rw [h]; decide
  · have h := minimal_unlock_point_formula (headerAtEpoch ⟨5, 5, 1000⟩)
      (headerAtEpoch ⟨185, 6, 1000⟩) (by decide)
    rw [h]; decide

/-- C10: `minimal_unlock_point` produces no result exactly when the prepare
header's epoch number is strictly below the deposit header's (the unsigned
subtraction `prepare_number - deposit_number` underflows); it is defined on
every other input. -/
theorem minimal_unlock_point_none_iff (dh ph : HeaderView) :
    minimal_unlock_point dh ph = none ↔ ph.epoch.number < dh.epoch.number := by
  simp only [minimal_unlock_point]
  split <;> simp_all

/-- C10 witness: a prepare epoch number strictly below the deposit epoch number
makes `minimal_unlock_point` produce no result. -/
theorem minimal_unlock_point_none_iff_witness :
    minimal_unlock_point (headerAtEpoch ⟨10, 0, 1⟩) (headerAtEpoch ⟨9, 0, 1⟩) = none :=
  (minimal_unlock_point_none_iff _ _).mpr (by decide)

/-- C2 (amended): with `occupied ≤ capacity`, a nonzero deposit accumulated
rate, and the exact result `capacity + countable * prepare_ar / deposit_ar`
below `2 ^ 64`, the calculator returns exactly that value (wide arithmetic,
division truncated toward zero); with `capacity < occupied` it fails fatally.
The amendment adds the nonzero-rate and 64-bit-fit conditions: a zero deposit
rate also fails fatally (division by zero), and a result at or above `2 ^ 64`
is truncated by the final `u64` cast. -/
theorem dao_maximum_withdraw_formula (dh ph : HeaderView) (output : CellOutput)
    (occupied : Nat) :
    (occupied ≤ output.capacity → dh.dao_ar ≠ 0 →
      output.capacity + (output.capacity - occupied) * ph.dao_ar / dh.dao_ar < U64 →
      calculate_dao_maximum_withdraw4 dh ph output occupied =
        some (output.capacity + (output.capacity - occupied) * ph.dao_ar / dh.dao_ar))
    ∧ (output.capacity < occupied →
        calculate_dao_maximum_withdraw4 dh ph output occupied = none) := by
  constructor
  · intro hocc har hfit
    simp only [calculate_dao_maximum_withdraw4]
    rw [if_neg (by omega), if_neg har]
    have hi : (output.capacity - occupied) * ph.dao_ar / dh.dao_ar < U64 := by omega
    rw [Nat.mod_eq_of_lt hi, Nat.mod_eq_of_lt hfit]
  · intro hlt
    simp only [calculate_dao_maximum_withdraw4]
    rw [if_pos hlt]

/-- C2 witness: both branches of `dao_maximum_withdraw_formula` at concrete
inputs: rates 2 and 3 with capacity 100 and occupied 40 give
`100 + 60 * 3 / 2 = 190`; occupied 101 exceeds the capacity and fails. -/
theorem dao_maximum_withdraw_formula_witness :
    calculate_dao_maximum_withdraw4 ⟨⟨0, 0, 1⟩, 2, 0, 0⟩ ⟨⟨0, 0, 1⟩, 3, 0, 0⟩
        ⟨100, 0, none⟩ 40 = some 190
    ∧ calculate_dao_maximum_withdraw4 ⟨⟨0, 0, 1⟩, 2, 0, 0⟩ ⟨⟨0, 0, 1⟩, 3, 0, 0⟩
        ⟨100, 0, none⟩ 101 = none := by
  constructor
  · have h := (dao_maximum_withdraw_formula ⟨⟨0, 0, 1⟩, 2, 0, 0⟩ ⟨⟨0, 0, 1⟩, 3, 0, 0⟩
      ⟨100, 0, none⟩ 40).1 (by decide) (by decide) (by decide)
    rw [h]; decide
  · exact (dao_maximum_withdraw_formula ⟨⟨0, 0, 1⟩, 2, 0, 0⟩ ⟨⟨0, 0, 1⟩, 3, 0, 0⟩
      ⟨100, 0, none⟩ 101).2 (by decide)

/-- C2 counterexample: with a zero deposit accumulated rate the calculator
fails fatally (the `u128` division panics) although the capacity is not below
the occupied capacity, so it does not return
`capacity + countable * prepare_ar / deposit_ar` as the claim states for every
such input. -/
theorem dao_maximum_withdraw_claim_cex :
    calculate_dao_maximum_withdraw4 ⟨⟨0, 0, 1⟩, 0, 0, 0⟩ ⟨⟨0, 0, 1⟩, 7, 0, 0⟩
        ⟨9, 0, none⟩ 4 = none
    ∧ (none : Option Nat) ≠ some (9 + (9 - 4) * 7 / 0) := by
  exact ⟨by decide, by decide⟩

/-- C3: evaluating the calculator at the specification's own example (deposit
rate `R = 10 ^ 18`, prepare rate `2 * R`, capacity 1000, occupied 500): the
code returns `some 2000` (it adds the grown countable capacity
`500 * 2R / R = 1000` to the full output capacity), not the value 1500 that
the specification and the ledger consensus formula
(`occupied + countable * prepare_ar / deposit_ar`) prescribe. -/
theorem dao_withdraw_spec_example_divergence :
    calculate_dao_maximum_withdraw4
        ⟨⟨0, 0, 1⟩, 10 ^ 18, 0, 0⟩ ⟨⟨0, 0, 1⟩, 2 * 10 ^ 18, 0, 0⟩
        ⟨1000, 0, none⟩ 500 = some 2000
    ∧ (some 2000 : Option Nat) ≠ some 1500 := by
  exact ⟨by decide, by decide⟩

/-- C8 (amended): the calculator fails exactly when the output capacity is
below the occupied capacity or the deposit accumulated rate is zero; every
other input produces a numeric result.  (The original claim's "never silently
truncated" part fails: see `dao_withdraw_totality_cex`.) -/
theorem dao_withdraw_failure_iff (dh ph : HeaderView) (output : CellOutput)
    (occupied : Nat) :
    calculate_dao_maximum_withdraw4 dh ph output occupied = none ↔
      output.capacity < occupied ∨ dh.dao_ar = 0 := by
  by_cases h1 : output.capacity < occupied <;> by_cases h2 : dh.dao_ar = 0 <;>
    simp [calculate_dao_maximum_withdraw4, h1, h2]

/-- C8 witness: `dao_withdraw_failure_iff` applied at a concrete input where
the occupied capacity exceeds the output capacity. -/
theorem dao_withdraw_failure_iff_witness :
    calculate_dao_maximum_withdraw4 ⟨⟨0, 0, 1⟩, 4, 0, 0⟩ ⟨⟨0, 0, 1⟩, 4, 0, 0⟩
      ⟨3, 0, none⟩ 8 = none :=
  (dao_withdraw_failure_iff _ _ _ _).mpr (Or.inl (by decide))

/-- A covered input is answered by the override store, with the same value,
whatever the live source is. -/
theorem get_input_cell_of_covered (mtx : MockTransaction) (input : CellInput)
    (h : coversInput mtx.mock_info input = true) :
    ∃ output data, ∀ lc : LiveCellGetter,
      mtx.get_input_cell input lc = .ok (some (output, data)) := by
  unfold coversInput at h
  rw [List.any_eq_true] at h
  obtain ⟨x, hx, hpx⟩ := h
  cases hf : findInputEntry mtx.mock_info input with
  | some m =>
      exact ⟨m.output, m.data, fun lc => by
        simp only [MockTransaction.get_input_cell, hf]⟩
  | none =>
      have := List.find?_eq_none.mp hf x hx
      exact absurd hpx this

/-- A covered dependency out-point is answered by the override store, with
the same value, whatever the live source is. -/
theorem get_dep_cell_of_covered (mtx : MockTransaction) (op : OutPoint)
    (h : coversDepOutPoint mtx.mock_info op = true) :
    ∃ output data, ∀ lc : LiveCellGetter,
      mtx.get_dep_cell op lc = .ok (some (output, data)) := by
  unfold coversDepOutPoint at h
  rw [List.any_eq_true] at h
  obtain ⟨x, hx, hpx⟩ := h
  cases hf : findDepEntry mtx.mock_info op with
  | some m =>
      exact ⟨m.output, m.data, fun lc => by
        simp only [MockTransaction.get_dep_cell, hf]⟩
  | none =>
      have := List.find?_eq_none.mp hf x hx
      exact absurd hpx this

/-- A covered header hash is answered by the override store, with the same
value, whatever the live source is. -/
theorem get_header_of_covered (mtx : MockTransaction) (bh : Nat)
    (h : coversHeader mtx.mock_info bh = true) :
    ∃ header, ∀ hg : LiveHeaderGetter,
      mtx.get_header bh hg = .ok (some header) := by
  unfold coversHeader at h
  rw [List.any_eq_true] at h
  obtain ⟨x, hx, hpx⟩ := h
  cases hf : findHeaderEntry mtx.mock_info bh with
  | some m =>
      exact ⟨m, fun hg => by simp only [MockTransaction.get_header, hf]⟩
  | none =>
      have := List.find?_eq_none.mp hf x hx
      exact absurd hpx this

/-- With every input of the list covered, the input phase succeeds with a
result independent of the live source. -/
theorem resolveInputs_of_covered (mtx : MockTransaction) (l : List CellInput)
    (h : ∀ i ∈ l, coversInput mtx.mock_info i = true) (cells : CellMap) :
    ∃ out, ∀ lc, resolveInputs mtx lc l cells = .ok out := by
  induction l generalizing cells with
  | nil => exact ⟨cells, fun lc => rfl⟩
  | cons i rest ih =>
      obtain ⟨o, d, ho⟩ := get_input_cell_of_covered mtx i (h i (by simp))
      obtain ⟨out, hout⟩ := ih (fun x hx => h x (by simp [hx]))
        (alistInsert cells i.previous_output (mkCellMeta o d i.previous_output))
      exact ⟨out, fun lc => by
        simp only [resolveInputs, ho lc]
        exact hout lc⟩

/-- With every member out-point of the list covered, the dependency-group
member phase succeeds with a result independent of the live source. -/
theorem resolveSubOutPoints_of_covered (mtx : MockTransaction)
    (l : List OutPoint)
    (h : ∀ s ∈ l, coversDepOutPoint mtx.mock_info s = true) (cells : CellMap) :
    ∃ out, ∀ lc, resolveSubOutPoints mtx lc l cells = .ok out := by
  induction l generalizing cells with
  | nil => exact ⟨cells, fun lc => rfl⟩
  | cons s rest ih =>
      obtain ⟨o, d, ho⟩ := get_dep_cell_of_covered mtx s (h s (by simp))
      obtain ⟨out, hout⟩ := ih (fun x hx => h x (by simp [hx]))
        (alistInsert cells s (mkCellMeta o d s))
      exact ⟨out, fun lc => by
        simp only [resolveSubOutPoints, ho lc]
        exact hout lc⟩

/-- With every dependency of the list covered (members of parsed groups
included), the dependency phase succeeds with a result independent of the
live source. -/
theorem resolveCellDeps_of_covered (mtx : MockTransaction) (l : List CellDep)
    (h : ∀ d ∈ l, coversDep mtx.mock_info d = true) (cells : CellMap) :
    ∃ out, ∀ lc, resolveCellDeps mtx lc l cells = .ok out := by
  induction l generalizing cells with
  | nil => exact ⟨cells, fun lc => rfl⟩
  | cons d rest ih =>
      have hd := h d (by simp)
      unfold coversDep at hd
      cases hfind : findDepEntry mtx.mock_info d.out_point with
      | none => simp [hfind] at hd
      | some m =>
          simp only [hfind] at hd
          have hget : ∀ lc : LiveCellGetter,
              mtx.get_dep_cell d.out_point lc = .ok (some (m.output, m.data)) := by
            intro lc
            simp only [MockTransaction.get_dep_cell, hfind]
          cases hdt : d.dep_type with
          | code =>
              obtain ⟨out, hout⟩ := ih (fun x hx => h x (by simp [hx]))
                (alistInsert cells d.out_point (mkCellMeta m.output m.data d.out_point))
              exact ⟨out, fun lc => by
                simp only [resolveCellDeps, hget lc, hdt]
                exact hout lc⟩
          | depGroup =>
              rw [hdt] at hd
              cases hp : parseOutPointVec m.data with
              | error e => simp [hp] at hd
              | ok subs =>
                  simp only [hp, List.all_eq_true] at hd
                  obtain ⟨cells1, hc1⟩ :=
                    resolveSubOutPoints_of_covered mtx subs hd cells
                  obtain ⟨out, hout⟩ := ih (fun x hx => h x (by simp [hx]))
                    (alistInsert cells1 d.out_point
                      (mkCellMeta m.output m.data d.out_point))
                  exact ⟨out, fun lc => by
                    simp only [resolveCellDeps, hget lc, hdt, hp, hc1 lc]
                    exact hout lc⟩

/-- With every header dependency of the list covered, the header phase
succeeds with a result independent of the live source. -/
theorem resolveHeaderDeps_of_covered (mtx : MockTransaction) (l : List Nat)
    (h : ∀ bh ∈ l, coversHeader mtx.mock_info bh = true) (headers : HeaderMap) :
    ∃ out, ∀ hg, resolveHeaderDeps mtx hg l headers = .ok out := by
  induction l generalizing headers with
  | nil => exact ⟨headers, fun hg => rfl⟩
  | cons bh rest ih =>
      obtain ⟨hd, hhd⟩ := get_header_of_covered mtx bh (h bh (by simp))
      obtain ⟨out, hout⟩ := ih (fun x hx => h x (by simp [hx]))
        (alistInsert headers bh hd)
      exact ⟨out, fun hg => by
        simp only [resolveHeaderDeps, hhd hg]
        exact hout hg⟩

/-- C4: for every mock transaction whose override store declares an entry for
every input, cell dependency (dependency-group members included) and header
dependency the skeleton references, resolution with the always-failing live
source succeeds, and every live source — in particular one restricted to keys
absent from the store — produces the very same `Resource`: the live fallback
is never consulted for a key that has an override. -/
theorem resolve_override_precedence (mtx : MockTransaction)
    (h : covers mtx = true) :
    ∃ r, Resource.from_both mtx failCellGetter failHeaderGetter = .ok r
      ∧ ∀ lc hg, Resource.from_both mtx lc hg = .ok r := by
  unfold covers at h
  rw [Bool.and_eq_true, Bool.and_eq_true] at h
  obtain ⟨⟨h1, h2⟩, h3⟩ := h
  rw [List.all_eq_true] at h1 h2 h3
  obtain ⟨c1, hc1⟩ := resolveInputs_of_covered mtx mtx.tx.inputs h1 []
  obtain ⟨c2, hc2⟩ := resolveCellDeps_of_covered mtx mtx.tx.cell_deps h2 c1
  obtain ⟨hm, hhm⟩ := resolveHeaderDeps_of_covered mtx mtx.tx.header_deps h3 []
  have hall : ∀ (lc : LiveCellGetter) (hg : LiveHeaderGetter),
      Resource.from_both mtx lc hg = .ok ⟨c2, hm⟩ := by
    intro lc hg
    unfold Resource.from_both
    simp only [hc1 lc, hc2 lc, hhm hg]
  exact ⟨⟨c2, hm⟩, hall failCellGetter failHeaderGetter, hall⟩

/-- C8 counterexample: the claim "fails only when capacity is below occupied"
is false — a zero deposit rate fails although `0 ≤ 10`; and the claim "the
result is never silently truncated" is false — with deposit rate 1, prepare
rate `2 ^ 64 - 1`, capacity `2 ^ 64 - 1` and occupied 0, the code returns
`some 0` while the untruncated value is `(2 ^ 64 - 1) + (2 ^ 64 - 1) ^ 2`. -/
theorem dao_withdraw_totality_cex :
    calculate_dao_maximum_withdraw4 ⟨⟨0, 0, 1⟩, 0, 0, 0⟩ ⟨⟨0, 0, 1⟩, 5, 0, 0⟩
        ⟨10, 0, none⟩ 0 = none
    ∧ calculate_dao_maximum_withdraw4 ⟨⟨0, 0, 1⟩, 1, 0, 0⟩
        ⟨⟨0, 0, 1⟩, 2 ^ 64 - 1, 0, 0⟩ ⟨2 ^ 64 - 1, 0, none⟩ 0 = some 0
    ∧ (0 : Nat) ≠ (2 ^ 64 - 1) + (2 ^ 64 - 1) * (2 ^ 64 - 1) / 1 := by
  refine ⟨by decide, by decide, by decide⟩

/-- Lookup after insert: the inserted key maps to the new value, every other
key is unchanged. -/
theorem alistLookup_insert {α β : Type} [DecidableEq α] (m : List (α × β))
    (k k2 : α) (v : β) :
    alistLookup (alistInsert m k v) k2 =
      if k2 = k then some v else alistLookup m k2 := by
  induction m with
  | nil =>
      simp only [alistInsert, alistLookup]
      by_cases h : k = k2
      · rw [if_pos h, if_pos h.symm]
      · rw [if_neg h, if_neg (fun hh => h hh.symm)]
  | cons p rest ih =>
      simp only [alistInsert]
      by_cases hp : p.1 = k
      · rw [if_pos hp]
        simp only [alistLookup]
        by_cases h2 : k = k2
        · rw [if_pos h2, if_pos h2.symm]
        · rw [if_neg h2, if_neg (fun hh => h2 hh.symm),
            if_neg (fun hh => h2 (hp.symm.trans hh))]
      · rw [if_neg hp]
        simp only [alistLookup]
        by_cases h2 : p.1 = k2
        · rw [if_pos h2, if_neg (fun hh : k2 = k => hp (h2.trans hh)), if_pos h2]
        · rw [if_neg h2, if_neg h2, ih]

/-- Inserting a key that is absent adds exactly one entry. -/
theorem alistInsert_length_of_fresh {α β : Type} [DecidableEq α]
    (m : List (α × β)) (k : α) (v : β) (h : alistLookup m k = none) :
    (alistInsert m k v).length = m.length + 1 := by
  induction m with
  | nil => rfl
  | cons p rest ih =>
      simp only [alistLookup] at h
      by_cases hp : p.1 = k
      · rw [if_pos hp] at h
        cases h
      · rw [if_neg hp] at h
        simp only [alistInsert, if_neg hp, List.length_cons, ih h]

/-- A successful dependency-group member phase over pairwise-distinct members
that are all absent from the incoming map adds exactly one entry per member,
and a key is absent afterwards exactly when it was absent before and is not a
member. -/
theorem resolveSubOutPoints_spec (mtx : MockTransaction) (lc : LiveCellGetter)
    (subs : List OutPoint) (cells out : CellMap) :
    subs.Nodup → (∀ s ∈ subs, alistLookup cells s = none) →
    resolveSubOutPoints mtx lc subs cells = .ok out →
    out.length = cells.length + subs.length
      ∧ ∀ k, alistLookup out k = none ↔
          (alistLookup cells k = none ∧ k ∉ subs) := by
  induction subs generalizing cells with
  | nil =>
      intro _ _ h
      simp only [resolveSubOutPoints] at h
      injection h with h
      subst h
      simp
  | cons s rest ih =>
      intro hnodup hfresh h
      simp only [resolveSubOutPoints] at h
      cases hg : mtx.get_dep_cell s lc with
      | error e => simp [hg] at h
      | ok oval =>
          cases oval with
          | none => simp [hg] at h
          | some od =>
              obtain ⟨o, dt⟩ := od
              simp only [hg] at h
              have hfr : ∀ x ∈ rest,
                  alistLookup (alistInsert cells s (mkCellMeta o dt s)) x = none := by
                intro x hx
                rw [alistLookup_insert]
                have hxs : x ≠ s := fun hh =>
                  (List.nodup_cons.mp hnodup).1 (hh ▸ hx)
                rw [if_neg hxs]
                exact hfresh x (List.mem_cons_of_mem _ hx)
              obtain ⟨hlen, hlook⟩ := ih _ (List.nodup_cons.mp hnodup).2 hfr h
              constructor
              · rw [hlen, alistInsert_length_of_fresh _ _ _ (hfresh s (by simp))]
                simp only [List.length_cons]
                omega
              · intro k
                rw [hlook k, alistLookup_insert]
                by_cases hk : k = s
                · simp [hk]
                · simp [hk]

/-- C7: for every transaction whose skeleton has no inputs and exactly one
cell dependency, of kind `DepGroup`, whose declared override data parses into
the pairwise-distinct member out-points `subs` (also distinct from the group
cell's own out-point), a successful resolution stores exactly
`subs.length + 1` entries in the cell mapping: one per member plus the group
cell itself under its own out-point. -/
theorem dep_group_entry_count (mtx : MockTransaction) (lc : LiveCellGetter)
    (hg : LiveHeaderGetter) (d : CellDep) (m : MockCellDep)
    (subs : List OutPoint) (r : Resource)
    (hin : mtx.tx.inputs = [])
    (hdeps : mtx.tx.cell_deps = [d])
    (hdt : d.dep_type = DepType.depGroup)
    (hfind : findDepEntry mtx.mock_info d.out_point = some m)
    (hparse : parseOutPointVec m.data = .ok subs)
    (hnodup : (d.out_point :: subs).Nodup)
    (hok : Resource.from_both mtx lc hg = .ok r) :
    r.required_cells.length = subs.length + 1 := by
  unfold Resource.from_both at hok
  rw [hin, hdeps] at hok
  have hget : mtx.get_dep_cell d.out_point lc = .ok (some (m.output, m.data)) := by
    simp only [MockTransaction.get_dep_cell, hfind]
  simp only [resolveInputs] at hok
  cases hsub : resolveSubOutPoints mtx lc subs [] with
  | error e => simp [resolveCellDeps, hget, hdt, hparse, hsub] at hok
  | ok cells1 =>
      simp only [resolveCellDeps, hget, hdt, hparse, hsub] at hok
      cases hh : resolveHeaderDeps mtx hg mtx.tx.header_deps [] with
      | error e => simp [hh] at hok
      | ok hmap =>
          simp only [hh] at hok
          injection hok with hok
          subst hok
          obtain ⟨hlen, hlook⟩ := resolveSubOutPoints_spec mtx lc subs [] cells1
            (List.nodup_cons.mp hnodup).2 (fun s _ => rfl) hsub
          have hfresh : alistLookup cells1 d.out_point = none :=
            (hlook d.out_point).mpr ⟨rfl, (List.nodup_cons.mp hnodup).1⟩
          simp only []
          rw [alistInsert_length_of_fresh _ _ _ hfresh, hlen]
          simp

/-- C9: the cell-lookup adapter of a `Resource` is total and never reports a
dead cell or an error: an out-point present in the resolved cell mapping is
reported live with its resolved cell, and any other out-point — including one
never declared and unresolvable by any live source — is reported unknown. -/
theorem cell_provider_total (r : Resource) (op : OutPoint) :
    r.cell op ≠ CellStatus.dead
    ∧ (∀ m, alistLookup r.required_cells op = some m →
        r.cell op = CellStatus.live m)
    ∧ (alistLookup r.required_cells op = none →
        r.cell op = CellStatus.unknown) := by
  refine ⟨?_, ?_, ?_⟩
  · intro hdead
    revert hdead
    cases h : alistLookup r.required_cells op <;> simp [Resource.cell, h]
  · intro m hm
    simp [Resource.cell, hm]
  · intro hm
    simp [Resource.cell, hm]

/-- C9 witness: `cell_provider_total` applied to the empty snapshot and an
out-point never declared anywhere: the adapter answers unknown, not an
error. -/
theorem cell_provider_total_witness :
    Resource.cell ⟨[], []⟩ ⟨List.replicate 32 9, 0⟩ = CellStatus.unknown :=
  (cell_provider_total ⟨[], []⟩ ⟨List.replicate 32 9, 0⟩).2.2 rfl

/-- C6: decoding the portable representation of a mock transaction after
encoding it reproduces an equal value, for every pair of ledger hash
functions used by the external conversions — in particular for a header
override whose stored hash differs from any recomputation from its fields,
the literal supplied hash survives the round trip (the encoder records the
cached hash and the decoder forces it back with `fake_hash`). -/
theorem mock_transaction_roundtrip (ch1 ch2 : Epoch → Nat → Nat → Nat)
    (mtx : MockTransaction) :
    mockTransactionOfRepr ch2 (mockTransactionToRepr ch1 mtx) = mtx := by
  cases mtx with
  | mk info tx =>
      cases info with
      | mk ins deps hdrs =>
          simp only [mockTransactionToRepr, mockTransactionOfRepr,
            mockInfoToRepr, mockInfoOfRepr, List.map_map, Function.comp_def]
          have h1 : (fun x => mockInputOfRepr (mockInputToRepr x)) =
              fun x : MockInput => x := rfl
          have h2 : (fun x => mockCellDepOfRepr (mockCellDepToRepr x)) =
              fun x : MockCellDep => x := rfl
          have h3 : (fun x => headerOfRepr ch2 (headerToRepr ch1 x)) =
              fun x : HeaderView => x := rfl
          rw [h1, h2, h3]
          simp

/-- C4 witness: `resolve_override_precedence` applied to the fully covered
fixture `wMtx4`. -/
theorem resolve_override_precedence_witness :
    covers wMtx4 = true
    ∧ ∃ r, Resource.from_both wMtx4 failCellGetter failHeaderGetter = .ok r
        ∧ ∀ lc hg, Resource.from_both wMtx4 lc hg = .ok r :=
  ⟨by decide, resolve_override_precedence wMtx4 (by decide)⟩

/-- C7 witness: `dep_group_entry_count` applied to the two-member
dependency-group fixture `wMtx7`: resolution succeeds and the cell mapping
holds exactly 2 + 1 entries. -/
theorem dep_group_entry_count_witness :
    Resource.from_both wMtx7 failCellGetter failHeaderGetter = .ok wRes7
    ∧ wRes7.required_cells.length = 2 + 1 := by
  constructor
  · rfl
  · exact dep_group_entry_count wMtx7 failCellGetter failHeaderGetter wGroupDep
      wGroupMock [wSub1, wSub2] wRes7 rfl rfl rfl rfl rfl (by decide) rfl

/-- C5: the dependency-group payload parser accepts exactly the byte lengths
that are multiples of 36, yielding one out-point entry per 36 bytes; any
other length is rejected, and a transaction whose first cell dependency is a
dependency group with such a declared payload fails resolution with the fatal
parse error, which is distinct from every not-found error and from a
live-source transport error. -/
theorem dep_group_parse_error_spec :
    (∀ data : Bytes,
      (∃ subs, parseOutPointVec data = .ok subs
          ∧ subs.length = data.length / 36) ↔ data.length % 36 = 0)
    ∧ (∀ data : Bytes, data.length % 36 ≠ 0 →
        parseOutPointVec data = .error depGroupLenErrMsg)
    ∧ (∀ (mtx : MockTransaction) (lc : LiveCellGetter) (hg : LiveHeaderGetter)
        (d : CellDep) (rest : List CellDep) (m : MockCellDep),
        mtx.tx.inputs = [] → mtx.tx.cell_deps = d :: rest →
        d.dep_type = DepType.depGroup →
        findDepEntry mtx.mock_info d.out_point = some m →
        m.data.length % 36 ≠ 0 →
        Resource.from_both mtx lc hg =
          .error (RErr.parseDepGroup depGroupLenErrMsg))
    ∧ (∀ (s msg : String) (input : CellInput) (dep : CellDep) (op : OutPoint)
        (bh : Nat),
        RErr.parseDepGroup s ≠ RErr.canNotGetInput input
        ∧ RErr.parseDepGroup s ≠ RErr.canNotGetDep dep
        ∧ RErr.parseDepGroup s ≠ RErr.canNotGetGroupMember op
        ∧ RErr.parseDepGroup s ≠ RErr.canNotGetHeader bh
        ∧ RErr.parseDepGroup s ≠ RErr.loaderError msg) := by
  refine ⟨?_, ?_, ?_, ?_⟩
  · intro data
    constructor
    · rintro ⟨subs, hok, hlen⟩
      by_contra hmod
      simp [parseOutPointVec, hmod] at hok
    · intro hmod
      refine ⟨(List.range (data.length / 36)).map (fun i =>
          { tx_hash := (data.drop (36 * i)).take 32,
            index := leBytesToNat (((data.drop (36 * i)).drop 32).take 4) }),
        ?_, ?_⟩
      · simp only [parseOutPointVec, if_pos hmod]
      · simp
  · intro data hmod
    simp only [parseOutPointVec, if_neg hmod]
  · intro mtx lc hg d rest m hin hdeps hdt hfind hlen
    have hget : mtx.get_dep_cell d.out_point lc = .ok (some (m.output, m.data)) := by
      simp only [MockTransaction.get_dep_cell, hfind]
    have hperr : parseOutPointVec m.data = .error depGroupLenErrMsg := by
      simp only [parseOutPointVec, if_neg hlen]
    unfold Resource.from_both
    rw [hin, hdeps]
    simp only [resolveInputs, resolveCellDeps, hget, hdt, hperr]
  · intro s msg input dep op bh
    refine ⟨?_, ?_, ?_, ?_, ?_⟩ <;> simp

/-- C5 witness: `dep_group_parse_error_spec` applied to a one-byte payload
and to the malformed dependency-group fixture `wMtx5`. -/
theorem dep_group_parse_error_spec_witness :
    parseOutPointVec [0] = .error depGroupLenErrMsg
    ∧ Resource.from_both wMtx5 failCellGetter failHeaderGetter =
        .error (RErr.parseDepGroup depGroupLenErrMsg) := by
  constructor
  · exact dep_group_parse_error_spec.2.1 [0] (by decide)
  · exact dep_group_parse_error_spec.2.2.1 wMtx5 failCellGetter failHeaderGetter
      wDep5 [] wMock5 rfl rfl rfl rfl (by decide)

end CkbCli
